import Mathlib

/-!
Verification of the wallet approval-orchestration core of this repository.

We give a shallow embedding of the wallet-side store logic
(`src/app/src/store/store.js`: the pending-request registry helpers
`getLatestMessageParams`, `isTorusTransaction`, `handleConfirm`,
`handleDeny`, the broadcast-channel message handler and the watchdog
timer of the `showPopup` action), of the network-change approval surface
(`src/app/src/views/ProviderChange/ProviderChange.vue`: `triggerSign`,
`triggerDeny`), and of the payload transform stage
(`src/unnamed/part_002`: `transformStream`).

JavaScript values are embedded as follows: numeric ids and timestamps
become `Nat`; a possibly-`undefined` number becomes `Option Nat`
(`none` = `undefined`; `parseInt(undefined, 10)` is `NaN`, which we also
carry as `none`); the keyed collections of the Vuex state become lists in
enumeration order; a thrown exception becomes `Except.error`; calls into
the signing collaborator (`torusController`), the broadcast channel and
the window are recorded as an explicit list of `Effect`s in the order the
source performs them.
-/

/-- Status enum of a pending transaction (spec section 3). -/
inductive TxStatus
  | unapproved
  | approved
  | submitted
  | confirmed
  | failed
deriving DecidableEq

/-- The txParams record of a pending transaction. The JS fields `from` and
`to` are Lean keywords, so they are embedded as `fromAddr` and `toAddr`. -/
structure TxParams where
  fromAddr : String
  toAddr : String
  value : String
  gas : String
  gasPrice : String
  data : Option String
deriving DecidableEq

/-- A transaction entry of the store's `transactions` collection. -/
structure TxMeta where
  id : Nat
  txParams : TxParams
  status : TxStatus
  time : Nat
deriving DecidableEq

/-- A message entry of one of the three message collections
(`unapprovedMsgs`, `unapprovedPersonalMsgs`, `unapprovedTypedMessages`).
Its `msgParams.data` field is embedded as `data`; the display-only
fields written by `getLatestMessageParams` (`msgParams.message`,
`msgParams.typedMessages`) are not modelled, see the comment there. -/
structure MsgEntry where
  id : Nat
  time : Nat
  data : String
deriving DecidableEq

/-- The slice of `VuexStore.state` the orchestration code reads: the four
pending collections, each in enumeration order of its keys. -/
structure WalletState where
  unapprovedMsgs : List MsgEntry
  unapprovedPersonalMsgs : List MsgEntry
  unapprovedTypedMessages : List MsgEntry
  transactions : List TxMeta
deriving DecidableEq

/-- Modelled from the spec: the Vuex getters module (imported by
`store.js` from `./getters` but not among the provided sources) exposes
`unApprovedTransactions`; spec section 4.4 describes it as enumerating the
members of the transactions collection currently in unapproved-equivalent
status, and spec section 3 gives the status enum. -/
def unApprovedTransactions (wst : WalletState) : List TxMeta :=
  wst.transactions.filter (fun t => t.status == TxStatus.unapproved)

/-- Embedding of `isTorusTransaction` (store.js lines 249-261): the three
message collections are tested first, then the unapproved-transactions
getter; if all four are empty the function throws `No new transactions.` -/
def isTorusTransaction (wst : WalletState) : Except String Bool :=
  if wst.unapprovedPersonalMsgs.length > 0 then Except.ok false
  else if wst.unapprovedMsgs.length > 0 then Except.ok false
  else if wst.unapprovedTypedMessages.length > 0 then Except.ok false
  else if (unApprovedTransactions wst).length > 0 then Except.ok true
  else Except.error "No new transactions."

/-- The data carried by a decision message (`ev.data`): `id` and the
optional `gasPrice` the user may have edited. -/
structure DecisionEv where
  id : Option Nat
  gasPrice : Option String
deriving DecidableEq

/-- Observable calls the store code makes on its collaborators
(`torusController`, the broadcast channel, the popup window, the logger),
in source order. -/
inductive Effect
  | signPersonalMessage (m : MsgEntry) (metamaskId : Option Nat)
  | signMessage (m : MsgEntry) (metamaskId : Option Nat)
  | signTypedMessage (m : MsgEntry) (metamaskId : Option Nat)
  | updateTransaction (tx : TxMeta)
  | updateAndApproveTransaction (tx : Option TxMeta)
  | cancelPersonalMessage (id : Option Nat)
  | cancelMessage (id : Option Nat)
  | cancelTypedMessage (id : Option Nat)
  | cancelTransaction (id : Option Nat)
  | postPayload (ptype : String) (pid : Option Nat)
  | closeBC
  | closeWindow
  | logError (msg : String)
deriving DecidableEq

/-- JavaScript truthiness of the carried `gasPrice` (`if (ev.data.gasPrice)`):
absent is `undefined` (falsy) and the empty string is falsy. -/
def gasPriceTruthy : Option String → Bool
  | none => false
  | some s => s != ""

/-- Embedding of `handleConfirm` (store.js lines 152-187). Collection
lookups `state.xxx[ev.data.id]` are element lookup by id; an absent key
yields `undefined` and the subsequent `.msgParams` access throws, embedded
as `Except.error "TypeError"`. In the transaction branch the guard is the
raw `state.transactions` collection while the lookup searches the
`unApprovedTransactions` getter; a failed lookup with a truthy gasPrice
throws inside `JSON.parse(JSON.stringify(undefined))`, embedded as
`Except.error "SyntaxError"`, and with a falsy gasPrice the `undefined`
tx is passed to the collaborator, embedded as the `none` argument. -/
def handleConfirm (wst : WalletState) (ev : DecisionEv) : Except String (List Effect) :=
  if wst.unapprovedPersonalMsgs.length > 0 then
    match wst.unapprovedPersonalMsgs.find? (fun m => some m.id == ev.id) with
    | some m => Except.ok [Effect.signPersonalMessage m ev.id]
    | none => Except.error "TypeError"
  else if wst.unapprovedMsgs.length > 0 then
    match wst.unapprovedMsgs.find? (fun m => some m.id == ev.id) with
    | some m => Except.ok [Effect.signMessage m ev.id]
    | none => Except.error "TypeError"
  else if wst.unapprovedTypedMessages.length > 0 then
    match wst.unapprovedTypedMessages.find? (fun m => some m.id == ev.id) with
    | some m => Except.ok [Effect.signTypedMessage m ev.id]
    | none => Except.error "TypeError"
  else if wst.transactions.length > 0 then
    match (unApprovedTransactions wst).find? (fun x => some x.id == ev.id) with
    | some txMeta =>
      if gasPriceTruthy ev.gasPrice then
        let newTxMeta := { txMeta with txParams := { txMeta.txParams with gasPrice := ev.gasPrice.getD "" } }
        Except.ok [Effect.updateTransaction newTxMeta, Effect.updateAndApproveTransaction (some newTxMeta)]
      else
        Except.ok [Effect.updateAndApproveTransaction (some txMeta)]
    | none =>
      if gasPriceTruthy ev.gasPrice then Except.error "SyntaxError"
      else Except.ok [Effect.updateAndApproveTransaction none]
  else Except.error "No new transactions."

/-- Embedding of `handleDeny` (store.js lines 189-201): the same four
sequential emptiness checks, each branch a single cancel call carrying
`parseInt(id, 10)` (`none` = `NaN` when `id` is `undefined`); when all
four collections are empty the function falls through with no call. -/
def handleDeny (wst : WalletState) (id : Option Nat) : List Effect :=
  if wst.unapprovedPersonalMsgs.length > 0 then [Effect.cancelPersonalMessage id]
  else if wst.unapprovedMsgs.length > 0 then [Effect.cancelMessage id]
  else if wst.unapprovedTypedMessages.length > 0 then [Effect.cancelTypedMessage id]
  else if wst.transactions.length > 0 then [Effect.cancelTransaction id]
  else []

/-- Sentences of the spec about `classifyPendingKind` and the claim C2.
The classification fails with the no-pending-work error iff all four
pending collections are empty, and any state with a non-empty collection
classifies without error. -/
theorem isTorusTransaction_noPendingWork_iff (wst : WalletState) :
    ((∃ e, isTorusTransaction wst = Except.error e) ↔
      (wst.unapprovedPersonalMsgs = [] ∧ wst.unapprovedMsgs = [] ∧
        wst.unapprovedTypedMessages = [] ∧ unApprovedTransactions wst = [])) ∧
    (¬ (wst.unapprovedPersonalMsgs = [] ∧ wst.unapprovedMsgs = [] ∧
        wst.unapprovedTypedMessages = [] ∧ unApprovedTransactions wst = []) →
      ∃ b, isTorusTransaction wst = Except.ok b) := by
  unfold isTorusTransaction
  split_ifs with h1 h2 h3 h4
  · simp only [List.length_pos] at h1
    constructor
    · constructor
      · rintro ⟨e, he⟩; cases he
      · rintro ⟨hp, _, _, _⟩; exact absurd hp h1
    · intro _; exact ⟨false, rfl⟩
  · simp only [List.length_pos] at h2
    constructor
    · constructor
      · rintro ⟨e, he⟩; cases he
      · rintro ⟨_, hp, _, _⟩; exact absurd hp h2
    · intro _; exact ⟨false, rfl⟩
  · simp only [List.length_pos] at h3
    constructor
    · constructor
      · rintro ⟨e, he⟩; cases he
      · rintro ⟨_, _, hp, _⟩; exact absurd hp h3
    · intro _; exact ⟨false, rfl⟩
  · simp only [List.length_pos] at h4
    constructor
    · constructor
      · rintro ⟨e, he⟩; cases he
      · rintro ⟨_, _, _, hp⟩; exact absurd hp h4
    · intro _; exact ⟨true, rfl⟩
  · simp only [not_lt, Nat.le_zero, List.length_eq_zero] at h1 h2 h3 h4
    constructor
    · constructor
      · intro _; exact ⟨h1, h2, h3, h4⟩
      · intro _; exact ⟨"No new transactions.", rfl⟩
    · intro hc; exact absurd ⟨h1, h2, h3, h4⟩ hc

/-- The classification fails on the truly empty state: sanity check used
while developing, kept as a concrete evaluation of the embedding. -/
theorem isTorusTransaction_empty_eval :
    isTorusTransaction ⟨[], [], [], []⟩ = Except.error "No new transactions." := rfl

/-- The three message kinds, in the scan order of `getLatestMessageParams`
(the `unapprovedMsgs` loop first, then `unapprovedPersonalMsgs`, then
`unapprovedTypedMessages`). -/
inductive Kind
  | plain
  | personal
  | typed
deriving DecidableEq

/-- Position of a kind in the scan order of `getLatestMessageParams`. -/
def kindIdx : Kind → Nat
  | Kind.plain => 0
  | Kind.personal => 1
  | Kind.typed => 2

/-- The mutable locals of `getLatestMessageParams` (`time`, `msg`,
`finalId`); the kept message is tagged with the collection it came from. -/
structure ScanSt where
  time : Nat
  best : Option (Kind × MsgEntry)
  finalId : Nat
deriving DecidableEq

/-- One iteration of a scan loop of `getLatestMessageParams`: the locals
are replaced exactly when `msgTime > time` (strict comparison). -/
def scanStep (k : Kind) (s : ScanSt) (m : MsgEntry) : ScanSt :=
  if m.time > s.time then { time := m.time, best := some (k, m), finalId := m.id } else s

/-- One whole `for...in` loop of `getLatestMessageParams` over one
collection, in enumeration order. -/
def scanColl (k : Kind) (s : ScanSt) (coll : List MsgEntry) : ScanSt :=
  coll.foldl (scanStep k) s

/-- The three loops of `getLatestMessageParams` run in source order,
starting from `time = 0`, `msg = null`, `finalId = 0`. -/
def scanAllColls (wst : WalletState) : ScanSt :=
  scanColl Kind.typed
    (scanColl Kind.personal
      (scanColl Kind.plain { time := 0, best := none, finalId := 0 } wst.unapprovedMsgs)
      wst.unapprovedPersonalMsgs)
    wst.unapprovedTypedMessages

/-- Embedding of `getLatestMessageParams` (store.js lines 203-247): returns
the selected message together with its collection tag and the `finalId`
local, or `none` when `msg` stayed `null` (the source returns an empty
object then). The display-only writes between and inside the loops
(`msg.msgParams.message`, set from `hexToUtf8(msg.msgParams.data)` of the
external web3-utils collaborator with the raw data as fallback, and
`msg.msgParams.typedMessages`) add presentation fields to the selected
message and never affect which entry wins, which `time` is kept or which
`finalId` is returned; they are not modelled. -/
def getLatestMessageParams (wst : WalletState) : Option (Kind × MsgEntry × Nat) :=
  match (scanAllColls wst).best with
  | some (k, m) => some (k, m, (scanAllColls wst).finalId)
  | none => none

/-- The message collections tagged with their kinds, concatenated in scan
order. -/
def tagged (k : Kind) (l : List MsgEntry) : List (Kind × MsgEntry) :=
  l.map (fun m => (k, m))

/-- All pending messages of the three collections, tagged and listed in
the scan order of `getLatestMessageParams`. -/
def allTagged (wst : WalletState) : List (Kind × MsgEntry) :=
  tagged Kind.plain wst.unapprovedMsgs ++ tagged Kind.personal wst.unapprovedPersonalMsgs ++
    tagged Kind.typed wst.unapprovedTypedMessages

theorem mem_tagged (k : Kind) (l : List MsgEntry) (y : Kind × MsgEntry) :
    y ∈ tagged k l ↔ y.1 = k ∧ y.2 ∈ l := by
  cases y with
  | mk y1 y2 =>
    simp only [tagged, List.mem_map, Prod.mk.injEq]
    constructor
    · rintro ⟨m, hm, hk, hm2⟩
      subst hk; subst hm2
      exact ⟨rfl, hm⟩
    · rintro ⟨h1, h2⟩
      exact ⟨y2, h2, h1.symm, rfl⟩

theorem mem_allTagged (wst : WalletState) (y : Kind × MsgEntry) :
    y ∈ allTagged wst ↔
      (y.1 = Kind.plain ∧ y.2 ∈ wst.unapprovedMsgs) ∨
      (y.1 = Kind.personal ∧ y.2 ∈ wst.unapprovedPersonalMsgs) ∨
      (y.1 = Kind.typed ∧ y.2 ∈ wst.unapprovedTypedMessages) := by
  simp [allTagged, List.mem_append, mem_tagged, or_assoc]

theorem plain_mem_allTagged (wst : WalletState) (m : MsgEntry)
    (hm : m ∈ wst.unapprovedMsgs) : (Kind.plain, m) ∈ allTagged wst :=
  (mem_allTagged wst (Kind.plain, m)).mpr (Or.inl ⟨rfl, hm⟩)

theorem personal_mem_allTagged (wst : WalletState) (m : MsgEntry)
    (hm : m ∈ wst.unapprovedPersonalMsgs) : (Kind.personal, m) ∈ allTagged wst :=
  (mem_allTagged wst (Kind.personal, m)).mpr (Or.inr (Or.inl ⟨rfl, hm⟩))

theorem typed_mem_allTagged (wst : WalletState) (m : MsgEntry)
    (hm : m ∈ wst.unapprovedTypedMessages) : (Kind.typed, m) ∈ allTagged wst :=
  (mem_allTagged wst (Kind.typed, m)).mpr (Or.inr (Or.inr ⟨rfl, hm⟩))

theorem scanStep_time_le (k : Kind) (s : ScanSt) (m : MsgEntry) :
    s.time ≤ (scanStep k s m).time := by
  unfold scanStep
  split
  · exact Nat.le_of_lt (by assumption)
  · exact Nat.le_refl _

theorem scanStep_mem_le (k : Kind) (s : ScanSt) (m : MsgEntry) :
    m.time ≤ (scanStep k s m).time := by
  unfold scanStep
  split
  · exact Nat.le_refl _
  · exact Nat.le_of_not_lt (by assumption)

theorem scanColl_time_le (k : Kind) (coll : List MsgEntry) :
    ∀ s : ScanSt, s.time ≤ (scanColl k s coll).time := by
  induction coll with
  | nil => intro s; exact Nat.le_refl _
  | cons m rest ih =>
    intro s
    exact Nat.le_trans (scanStep_time_le k s m) (ih (scanStep k s m))

theorem scanColl_mem_le (k : Kind) (coll : List MsgEntry) :
    ∀ s : ScanSt, ∀ m ∈ coll, m.time ≤ (scanColl k s coll).time := by
  induction coll with
  | nil => intro s m hm; cases hm
  | cons a rest ih =>
    intro s m hm
    rcases List.mem_cons.mp hm with h | h
    · subst h
      exact Nat.le_trans (scanStep_mem_le k s m) (scanColl_time_le k rest (scanStep k s m))
    · exact ih (scanStep k s a) m h

theorem scanColl_stay (k : Kind) (coll : List MsgEntry) :
    ∀ s : ScanSt, (∀ m ∈ coll, m.time ≤ s.time) → scanColl k s coll = s := by
  induction coll with
  | nil => intro s _; rfl
  | cons a rest ih =>
    intro s hs
    have hstep : scanStep k s a = s := by
      unfold scanStep
      split
      · exact absurd (hs a (List.mem_cons_self a rest)) (Nat.not_le_of_lt (by assumption))
      · rfl
    show scanColl k (scanStep k s a) rest = s
    rw [hstep]
    exact ih s (fun m hm => hs m (List.mem_cons_of_mem a hm))

theorem scanColl_inv (k : Kind) (coll : List MsgEntry) (S : Kind × MsgEntry → Prop)
    (hcoll : ∀ m ∈ coll, S (k, m)) :
    ∀ s : ScanSt,
      (0 < s.time → ∃ km, S km ∧ s.best = some km ∧ km.2.time = s.time ∧ s.finalId = km.2.id) →
      (0 < (scanColl k s coll).time →
        ∃ km, S km ∧ (scanColl k s coll).best = some km ∧
          km.2.time = (scanColl k s coll).time ∧ (scanColl k s coll).finalId = km.2.id) := by
  induction coll with
  | nil => intro s hs; exact hs
  | cons a rest ih =>
    intro s hs
    refine ih (fun m hm => hcoll m (List.mem_cons_of_mem a hm)) (scanStep k s a) ?_
    intro hpos
    unfold scanStep at hpos ⊢
    by_cases hlt : a.time > s.time
    · rw [if_pos hlt] at hpos ⊢
      exact ⟨(k, a), hcoll a (List.mem_cons_self a rest), rfl, rfl, rfl⟩
    · rw [if_neg hlt] at hpos ⊢
      exact hs hpos

theorem kindIdx_le_two (k : Kind) : kindIdx k ≤ 2 := by
  cases k <;> simp [kindIdx]

/-- Claim C1 is false on the code: the two scan loops compare with strict
`msgTime > time`, so on an exact tie of maximal times across kinds the
entry of the kind scanned FIRST is kept, not the kind scanned last. With
one plain message and one personal message both at time 5, the claim
says the personal entry (scanned later) is returned, but the code keeps
the plain one. -/
theorem getLatestMessageParams_tie_counterexample :
    getLatestMessageParams
        { unapprovedMsgs := [{ id := 1, time := 5, data := "a" }],
          unapprovedPersonalMsgs := [{ id := 2, time := 5, data := "b" }],
          unapprovedTypedMessages := [], transactions := [] } =
      some (Kind.plain, { id := 1, time := 5, data := "a" }, 1) ∧
    Kind.plain ≠ Kind.personal := by
  exact ⟨rfl, by decide⟩

/-- Claim C1 as amended: for every set of pending messages containing at
least one entry with positive time (the scan locals start at `time = 0`,
so an entry is only ever selected when its timestamp is positive),
`getLatestMessageParams` returns an entry of one of the three collections
whose `time` is maximal, together with that entry's id; and whenever an
entry of some kind also attains the maximal time, the returned entry
belongs to a kind scanned no later than it (first-scanned kind wins an
exact tie, in the order plain, personal, typed). -/
theorem getLatestMessageParams_spec (wst : WalletState)
    (h : ∃ x ∈ allTagged wst, 0 < x.2.time) :
    ∃ k m fid, getLatestMessageParams wst = some (k, m, fid) ∧
      (k, m) ∈ allTagged wst ∧ fid = m.id ∧
      (∀ y ∈ allTagged wst, y.2.time ≤ m.time) ∧
      (∀ y ∈ allTagged wst, y.2.time = m.time → kindIdx k ≤ kindIdx y.1) := by
  classical
  set s0 : ScanSt := { time := 0, best := none, finalId := 0 } with hs0
  set s1 := scanColl Kind.plain s0 wst.unapprovedMsgs with hs1
  set s2 := scanColl Kind.personal s1 wst.unapprovedPersonalMsgs with hs2
  set s3 := scanColl Kind.typed s2 wst.unapprovedTypedMessages with hs3
  have hscan : scanAllColls wst = s3 := rfl
  have h12 : s1.time ≤ s2.time := scanColl_time_le _ _ _
  have h23 : s2.time ≤ s3.time := scanColl_time_le _ _ _
  have hub : ∀ y ∈ allTagged wst, y.2.time ≤ s3.time := by
    intro y hy
    rcases (mem_allTagged wst y).mp hy with ⟨_, hmem⟩ | ⟨_, hmem⟩ | ⟨_, hmem⟩
    · exact Nat.le_trans (Nat.le_trans (scanColl_mem_le _ _ s0 y.2 hmem) h12) h23
    · exact Nat.le_trans (scanColl_mem_le _ _ s1 y.2 hmem) h23
    · exact scanColl_mem_le _ _ s2 y.2 hmem
  obtain ⟨x, hx, hxpos⟩ := h
  have hpos : 0 < s3.time := Nat.lt_of_lt_of_le hxpos (hub x hx)
  have hinv :
      ∃ km, km ∈ allTagged wst ∧ s3.best = some km ∧
        km.2.time = s3.time ∧ s3.finalId = km.2.id := by
    refine scanColl_inv Kind.typed wst.unapprovedTypedMessages (· ∈ allTagged wst) ?_ s2 ?_ hpos
    · intro m hm
      exact typed_mem_allTagged wst m hm
    · refine scanColl_inv Kind.personal wst.unapprovedPersonalMsgs (· ∈ allTagged wst) ?_ s1 ?_
      · intro m hm
        exact personal_mem_allTagged wst m hm
      · refine scanColl_inv Kind.plain wst.unapprovedMsgs (· ∈ allTagged wst) ?_ s0 ?_
        · intro m hm
          exact plain_mem_allTagged wst m hm
        · intro h0; exact absurd h0 (by simp [hs0])
  obtain ⟨km, hkmmem, hkmbest, hkmtime, hkmid⟩ := hinv
  refine ⟨km.1, km.2, s3.finalId, ?_, ?_, hkmid, ?_, ?_⟩
  · unfold getLatestMessageParams
    rw [hscan, hkmbest]
  · exact hkmmem
  · intro y hy
    rw [hkmtime]
    exact hub y hy
  · intro y hy hytime
    rcases (mem_allTagged wst y).mp hy with ⟨hy1, hmem⟩ | ⟨hy1, hmem⟩ | ⟨hy1, hmem⟩
    · -- y is a plain entry attaining the maximum: the scan of the later
      -- collections cannot replace the plain best, so the result is plain.
      have h1ge : y.2.time ≤ s1.time := scanColl_mem_le _ _ s0 y.2 hmem
      have h1eq : s1.time = s3.time := by
        have : s3.time ≤ s1.time := by
          rw [← hkmtime, ← hytime]
          exact h1ge
        exact Nat.le_antisymm (Nat.le_trans h12 h23) this
      have hstay2 : s2 = s1 := by
        refine scanColl_stay _ _ s1 ?_
        intro m hm
        have : m.time ≤ s3.time := hub (Kind.personal, m) (personal_mem_allTagged wst m hm)
        rw [h1eq]; exact this
      have hstay3 : s3 = s1 := by
        rw [hs3, hstay2]
        refine scanColl_stay _ _ s1 ?_
        intro m hm
        have : m.time ≤ s3.time := hub (Kind.typed, m) (typed_mem_allTagged wst m hm)
        rw [h1eq]; exact this
      have hpos1 : 0 < s1.time := by rw [h1eq]; exact hpos
      have hinv1 :
          ∃ km', km' ∈ tagged Kind.plain wst.unapprovedMsgs ∧ s1.best = some km' ∧
            km'.2.time = s1.time ∧ s1.finalId = km'.2.id := by
        refine scanColl_inv Kind.plain wst.unapprovedMsgs
          (· ∈ tagged Kind.plain wst.unapprovedMsgs) ?_ s0 ?_ hpos1
        · intro m hm; exact (mem_tagged _ _ _).mpr ⟨rfl, hm⟩
        · intro h0; exact absurd h0 (by simp [hs0])
      obtain ⟨km', hkm'mem, hkm'best, _, _⟩ := hinv1
      have : some km = some km' := by rw [← hkmbest, hstay3, hkm'best]
      have hkk : km = km' := Option.some_inj.mp this
      have : km.1 = Kind.plain := by
        rw [hkk]
        exact ((mem_tagged _ _ _).mp hkm'mem).1
      rw [this]
      simp [kindIdx]
    · -- y is a personal entry attaining the maximum: the typed scan
      -- cannot replace the best of the first two collections.
      have h2ge : y.2.time ≤ s2.time := scanColl_mem_le _ _ s1 y.2 hmem
      have h2eq : s2.time = s3.time := by
        have : s3.time ≤ s2.time := by
          rw [← hkmtime, ← hytime]
          exact h2ge
        exact Nat.le_antisymm h23 this
      have hstay3 : s3 = s2 := by
        refine scanColl_stay _ _ s2 ?_
        intro m hm
        have : m.time ≤ s3.time := hub (Kind.typed, m) (typed_mem_allTagged wst m hm)
        rw [h2eq]; exact this
      have hpos2 : 0 < s2.time := by rw [h2eq]; exact hpos
      have hinv2 :
          ∃ km', kindIdx km'.1 ≤ 1 ∧ s2.best = some km' ∧
            km'.2.time = s2.time ∧ s2.finalId = km'.2.id := by
        refine scanColl_inv Kind.personal wst.unapprovedPersonalMsgs
          (fun km' => kindIdx km'.1 ≤ 1) ?_ s1 ?_ hpos2
        · intro m _; simp [kindIdx]
        · refine scanColl_inv Kind.plain wst.unapprovedMsgs
            (fun km' => kindIdx km'.1 ≤ 1) ?_ s0 ?_
          · intro m _; simp [kindIdx]
          · intro h0; exact absurd h0 (by simp [hs0])
      obtain ⟨km', hkm'idx, hkm'best, _, _⟩ := hinv2
      have : some km = some km' := by rw [← hkmbest, hstay3, hkm'best]
      have hkk : km = km' := Option.some_inj.mp this
      rw [hkk, hy1]
      exact hkm'idx
    · -- y is a typed entry: every kind index is at most the typed one.
      rw [hy1]
      exact kindIdx_le_two km.1

/-- Concrete instantiation of the amended claim C1: a plain message at
time 5 and a personal message at time 7; the scan returns the personal
entry, the unique maximum. -/
theorem getLatestMessageParams_spec_witness :
    (∃ x ∈ allTagged
        { unapprovedMsgs := [{ id := 1, time := 5, data := "a" }],
          unapprovedPersonalMsgs := [{ id := 2, time := 7, data := "b" }],
          unapprovedTypedMessages := [], transactions := [] }, 0 < x.2.time) ∧
    (∃ k m fid, getLatestMessageParams
        { unapprovedMsgs := [{ id := 1, time := 5, data := "a" }],
          unapprovedPersonalMsgs := [{ id := 2, time := 7, data := "b" }],
          unapprovedTypedMessages := [], transactions := [] } = some (k, m, fid) ∧
      (k, m) ∈ allTagged
        { unapprovedMsgs := [{ id := 1, time := 5, data := "a" }],
          unapprovedPersonalMsgs := [{ id := 2, time := 7, data := "b" }],
          unapprovedTypedMessages := [], transactions := [] } ∧ fid = m.id ∧
      (∀ y ∈ allTagged
        { unapprovedMsgs := [{ id := 1, time := 5, data := "a" }],
          unapprovedPersonalMsgs := [{ id := 2, time := 7, data := "b" }],
          unapprovedTypedMessages := [], transactions := [] }, y.2.time ≤ m.time) ∧
      (∀ y ∈ allTagged
        { unapprovedMsgs := [{ id := 1, time := 5, data := "a" }],
          unapprovedPersonalMsgs := [{ id := 2, time := 7, data := "b" }],
          unapprovedTypedMessages := [], transactions := [] },
        y.2.time = m.time → kindIdx k ≤ kindIdx y.1)) :=
  ⟨by decide, getLatestMessageParams_spec _ (by decide)⟩

/-- The session-local variables of one `showPopup` invocation: the
correlation id `txId` (`none` = `undefined`), whether the broadcast
channel is open, the `iClosedConfirmWindow` flag (initially `undefined`,
falsy), whether the popup window is still open (`confirmWindow.closed`
is its negation), and whether the `confirmTimer` interval is still
registered (`clearInterval` makes it false, so no further tick body
runs). -/
structure Session where
  txId : Option Nat
  bcOpen : Bool
  iClosedConfirmWindow : Bool
  windowOpen : Bool
  timerActive : Bool
deriving DecidableEq

/-- A message arriving on the session broadcast channel: either the
literal string `popup-loaded`, or an object with `type`, `id` and
optionally `gasPrice`. -/
inductive BCData
  | popupLoaded
  | decision (dtype : String) (id : Option Nat) (gasPrice : Option String)
deriving DecidableEq

/-- The `ev.data.id` property access: on the string `popup-loaded` it is
`undefined`. -/
def BCData.evId : BCData → Option Nat
  | BCData.popupLoaded => none
  | BCData.decision _ i _ => i

/-- The session fields written when a matching decision is handled
(store.js lines 101-104 and 128-131): `bc.close()`,
`iClosedConfirmWindow = true`, `txId = undefined`,
`confirmWindow && confirmWindow.close()`. -/
def resolvedSession (s : Session) : Session :=
  { s with bcOpen := false, iClosedConfirmWindow := true, txId := none, windowOpen := false }

/-- Embedding of the `bc.onmessage` handler installed by `showPopup`
(store.js lines 81-106 for the transaction branch, 109-133 for the
message branch; the two branches differ only in the payload posted on
`popup-loaded` and in the id assigned to `txId`, both captured by the
`isTx` flag and the `selId` selected at setup). The first guard ignores
any message whose carried id differs from an already-assigned `txId`.
A decision whose `handleConfirm` throws propagates out of the handler
before any session field is written, embedded as `Except.error` with the
state unchanged. -/
def onMessageStep (wst : WalletState) (isTx : Bool) (selId : Option Nat) (s : Session)
    (ev : BCData) : Session × Except String (List Effect) :=
  if s.txId ≠ none ∧ s.txId ≠ ev.evId then (s, Except.ok [])
  else if ev = BCData.popupLoaded ∧ s.txId = none then
    ({ s with txId := selId },
      Except.ok [Effect.postPayload (if isTx then "transaction" else "message") selId])
  else
    match ev with
    | BCData.popupLoaded => (s, Except.ok [])
    | BCData.decision dtype i g =>
      if dtype == "confirm-transaction" then
        match handleConfirm wst { id := i, gasPrice := g } with
        | Except.error e => (s, Except.error e)
        | Except.ok effs =>
          (resolvedSession s, Except.ok (effs ++ [Effect.closeBC, Effect.closeWindow]))
      else if dtype == "deny-transaction" then
        (resolvedSession s, Except.ok (handleDeny wst i ++ [Effect.closeBC, Effect.closeWindow]))
      else (s, Except.ok [])

/-- Delivery of a sequence of channel messages to the handler, collecting
each delivery's result in order. -/
def runMsgs (wst : WalletState) (isTx : Bool) (selId : Option Nat) :
    Session → List BCData → Session × List (Except String (List Effect))
  | s, [] => (s, [])
  | s, ev :: rest =>
    let p := onMessageStep wst isTx selId s ev
    let q := runMsgs wst isTx selId p.1 rest
    (q.1, p.2 :: q.2)

/-- Claim C4: once the correlation id is assigned, any number of decision
messages carrying a different id leave the session exactly as it was and
produce no effect at all: no collaborator call, the channel and the
surface keep their state, the correlation id is unchanged. -/
theorem staleDecisionsIgnored (wst : WalletState) (isTx : Bool) (selId : Option Nat)
    (s : Session) (t : Nat) (evs : List BCData)
    (ht : s.txId = some t)
    (hevs : ∀ ev ∈ evs, (∃ d i g, ev = BCData.decision d i g) ∧ ev.evId ≠ some t) :
    runMsgs wst isTx selId s evs = (s, evs.map fun _ => Except.ok []) := by
  induction evs with
  | nil => rfl
  | cons ev rest ih =>
    have hstep : onMessageStep wst isTx selId s ev = (s, Except.ok []) := by
      unfold onMessageStep
      have hcond : s.txId ≠ none ∧ s.txId ≠ ev.evId := by
        constructor
        · rw [ht]; exact Option.some_ne_none t
        · rw [ht]
          exact fun hc => (hevs ev (List.mem_cons_self ev rest)).2 hc.symm
      rw [if_pos hcond]
    show (let p := onMessageStep wst isTx selId s ev
          let q := runMsgs wst isTx selId p.1 rest
          (q.1, p.2 :: q.2)) = _
    rw [hstep]
    simp only []
    rw [ih (fun ev hm => hevs ev (List.mem_cons_of_mem _ hm))]
    rfl

/-- Concrete instantiation of claim C4: a session with correlation id 1
receives two stale decisions carrying ids 2 and none; nothing changes. -/
theorem staleDecisionsIgnored_witness :
    runMsgs ⟨[], [], [], []⟩ false (some 1)
        { txId := some 1, bcOpen := true, iClosedConfirmWindow := false,
          windowOpen := true, timerActive := true }
        [BCData.decision "deny-transaction" (some 2) none,
         BCData.decision "confirm-transaction" none (some "9")] =
      ({ txId := some 1, bcOpen := true, iClosedConfirmWindow := false,
          windowOpen := true, timerActive := true },
        [Except.ok [], Except.ok []]) :=
  staleDecisionsIgnored ⟨[], [], [], []⟩ false (some 1) _ 1 _ rfl (by
    intro ev hm
    rcases List.mem_cons.mp hm with h | h
    · subst h
      exact ⟨⟨"deny-transaction", some 2, none, rfl⟩, by decide⟩
    · rcases List.mem_cons.mp h with h2 | h2
      · subst h2
        exact ⟨⟨"confirm-transaction", none, some "9", rfl⟩, by decide⟩
      · cases h2)

/-- Classifies an effect as a call into the signing collaborator
(`torusController`): the accept operations (sign, update-and-approve) and
the reject operations (the four cancels). -/
def isCollabCall : Effect → Bool
  | Effect.signPersonalMessage _ _ => true
  | Effect.signMessage _ _ => true
  | Effect.signTypedMessage _ _ => true
  | Effect.updateTransaction _ => true
  | Effect.updateAndApproveTransaction _ => true
  | Effect.cancelPersonalMessage _ => true
  | Effect.cancelMessage _ => true
  | Effect.cancelTypedMessage _ => true
  | Effect.cancelTransaction _ => true
  | Effect.postPayload _ _ => false
  | Effect.closeBC => false
  | Effect.closeWindow => false
  | Effect.logError _ => false

/-- The id argument carried by a reject (cancel) collaborator call. -/
def cancelIdOf : Effect → Option (Option Nat)
  | Effect.cancelPersonalMessage i => some i
  | Effect.cancelMessage i => some i
  | Effect.cancelTypedMessage i => some i
  | Effect.cancelTransaction i => some i
  | _ => none

/-- Embedding of one firing of the `confirmTimer` watchdog (store.js
lines 135-147). A cleared interval no longer runs its body, embedded as
the `timerActive = false` no-op case. When the window is still open the
body does nothing. When the window is closed the code clears the
interval, synthesizes a deny via `handleDeny(txId)` (preceded by the
`user closed popup` log) unless `iClosedConfirmWindow` was set, closes
the channel, and resets `txId`, `iClosedConfirmWindow` and
`confirmWindow`. The middle component counts the `handleDeny`
invocations this tick makes. -/
def confirmTick (wst : WalletState) (s : Session) : Session × Nat × List Effect :=
  if s.timerActive = false then (s, 0, [])
  else if s.windowOpen = true then (s, 0, [])
  else
    let cleaned := { s with timerActive := false, bcOpen := false, txId := none, iClosedConfirmWindow := false }
    if s.iClosedConfirmWindow = false then
      (cleaned, 1, Effect.logError "user closed popup" :: (handleDeny wst s.txId ++ [Effect.closeBC]))
    else (cleaned, 0, [Effect.closeBC])

/-- A run of `n` watchdog firings, accumulating how many `handleDeny`
invocations they make in total. -/
def confirmTicks (wst : WalletState) : Nat → Session → Session × Nat
  | 0, s => (s, 0)
  | n + 1, s =>
    let p := confirmTick wst s
    let q := confirmTicks wst n p.1
    (q.1, p.2.1 + q.2)

theorem confirmTick_inactive (wst : WalletState) (s : Session)
    (h : s.timerActive = false) : confirmTick wst s = (s, 0, []) := by
  simp [confirmTick, h]

theorem confirmTicks_inactive (wst : WalletState) (s : Session)
    (h : s.timerActive = false) : ∀ n, confirmTicks wst n s = (s, 0) := by
  intro n
  induction n with
  | zero => rfl
  | succ m ih =>
    show (let p := confirmTick wst s
          let q := confirmTicks wst m p.1
          (q.1, p.2.1 + q.2)) = (s, 0)
    rw [confirmTick_inactive wst s h]
    simpa using ih

/-- Claim C5: a surface closed by the user without a decision makes the
next watchdog firing synthesize exactly one deny, and any further
firings none; after an orchestrator-initiated close
(`iClosedConfirmWindow` set by the decision handler) the firings
synthesize no deny at all. -/
theorem watchdogExactlyOneDeny (wst : WalletState) (s : Session) (n : Nat)
    (hn : 1 ≤ n) (ht : s.timerActive = true) (hw : s.windowOpen = false) :
    (s.iClosedConfirmWindow = false → (confirmTicks wst n s).2 = 1) ∧
    (s.iClosedConfirmWindow = true → (confirmTicks wst n s).2 = 0) := by
  cases n with
  | zero => exact absurd hn (by decide)
  | succ m =>
    constructor
    · intro hic
      have htick : confirmTick wst s =
          ({ s with timerActive := false, bcOpen := false, txId := none, iClosedConfirmWindow := false }, 1,
            Effect.logError "user closed popup" :: (handleDeny wst s.txId ++ [Effect.closeBC])) := by
        simp [confirmTick, ht, hw, hic]
      show (let p := confirmTick wst s
            let q := confirmTicks wst m p.1
            (q.1, p.2.1 + q.2)).2 = 1
      rw [htick]
      dsimp only
      rw [confirmTicks_inactive wst _ rfl m]
      rfl
    · intro hic
      have htick : confirmTick wst s =
          ({ s with timerActive := false, bcOpen := false, txId := none, iClosedConfirmWindow := false }, 0, [Effect.closeBC]) := by
        simp [confirmTick, ht, hw, hic]
      show (let p := confirmTick wst s
            let q := confirmTicks wst m p.1
            (q.1, p.2.1 + q.2)).2 = 0
      rw [htick]
      dsimp only
      rw [confirmTicks_inactive wst _ rfl m]
      rfl

/-- Concrete instantiation of claim C5: with a pending personal message,
a user-closed surface and three watchdog firings, exactly one deny is
synthesized in total. -/
theorem watchdogExactlyOneDeny_witness :
    (1 : Nat) ≤ 3 ∧
    (confirmTicks ⟨[], [{ id := 2, time := 10, data := "m" }], [], []⟩ 3
        { txId := some 2, bcOpen := true, iClosedConfirmWindow := false,
          windowOpen := false, timerActive := true }).2 = 1 :=
  ⟨by decide,
    (watchdogExactlyOneDeny ⟨[], [{ id := 2, time := 10, data := "m" }], [], []⟩
      { txId := some 2, bcOpen := true, iClosedConfirmWindow := false,
        windowOpen := false, timerActive := true } 3 (by decide) rfl rfl).1 rfl⟩

/-- Claim C7 is false on the code: with a pending personal message and a
session whose correlation id was never assigned, the watchdog firing
after an external close calls `handleDeny(txId)` with `txId` still
`undefined`, and `handleDeny` then DOES make a reject collaborator call
(`cancelPersonalMessage(parseInt(undefined, 10))`, a `NaN` id), so a
collaborator call is made even though the correlation id is unset. -/
theorem watchdogUnsetId_counterexample :
    (confirmTick ⟨[], [{ id := 2, time := 10, data := "m" }], [], []⟩
        { txId := none, bcOpen := true, iClosedConfirmWindow := false,
          windowOpen := false, timerActive := true }).2.2 =
      [Effect.logError "user closed popup", Effect.cancelPersonalMessage none, Effect.closeBC] ∧
    ((confirmTick ⟨[], [{ id := 2, time := 10, data := "m" }], [], []⟩
        { txId := none, bcOpen := true, iClosedConfirmWindow := false,
          windowOpen := false, timerActive := true }).2.2.any isCollabCall) = true := by
  exact ⟨rfl, rfl⟩

/-- Claim C7 as amended: when the watchdog fires after an external close
of a session whose correlation id was never assigned, the session
resolves as a deny (one `handleDeny` invocation) with the correlation id
still unset; every collaborator call that deny dispatch makes is a
reject (cancel) call carrying the `NaN` parse of the unset id (matching
no pending entry), and when all four pending collections are empty no
collaborator call is made at all. -/
theorem watchdogUnsetId_amended (wst : WalletState) (s : Session)
    (htx : s.txId = none) (ht : s.timerActive = true) (hw : s.windowOpen = false)
    (hic : s.iClosedConfirmWindow = false) :
    (confirmTick wst s).1.txId = none ∧ (confirmTick wst s).2.1 = 1 ∧
    (∀ e ∈ (confirmTick wst s).2.2, isCollabCall e = true → cancelIdOf e = some none) ∧
    (wst.unapprovedPersonalMsgs = [] → wst.unapprovedMsgs = [] →
      wst.unapprovedTypedMessages = [] → wst.transactions = [] →
      (confirmTick wst s).2.2.filter isCollabCall = []) := by
  have htick : confirmTick wst s =
      ({ s with timerActive := false, bcOpen := false, txId := none, iClosedConfirmWindow := false }, 1,
        Effect.logError "user closed popup" :: (handleDeny wst s.txId ++ [Effect.closeBC])) := by
    simp [confirmTick, ht, hw, hic]
  rw [htx] at htick
  refine ⟨by rw [htick], by rw [htick], ?_, ?_⟩
  · intro e he hcall
    rw [htick] at he
    rcases List.mem_cons.mp he with h | h
    · subst h; cases hcall
    · rcases List.mem_append.mp h with h2 | h2
      · unfold handleDeny at h2
        split_ifs at h2 <;>
          first
            | (rcases List.mem_singleton.mp h2 with rfl; rfl)
            | cases h2
      · rcases List.mem_singleton.mp h2 with rfl
        cases hcall
  · intro h1 h2 h3 h4
    rw [htick]
    have hden : handleDeny wst none = [] := by
      simp [handleDeny, h1, h2, h3, h4]
    rw [hden]
    rfl

/-- Concrete instantiation of the amended claim C7 on a state with one
pending personal message. -/
theorem watchdogUnsetId_amended_witness :
    (confirmTick ⟨[], [{ id := 2, time := 10, data := "m" }], [], []⟩
        { txId := none, bcOpen := true, iClosedConfirmWindow := false,
          windowOpen := false, timerActive := true }).1.txId = none ∧
    (confirmTick ⟨[], [{ id := 2, time := 10, data := "m" }], [], []⟩
        { txId := none, bcOpen := true, iClosedConfirmWindow := false,
          windowOpen := false, timerActive := true }).2.1 = 1 ∧
    (∀ e ∈ (confirmTick ⟨[], [{ id := 2, time := 10, data := "m" }], [], []⟩
        { txId := none, bcOpen := true, iClosedConfirmWindow := false,
          windowOpen := false, timerActive := true }).2.2,
      isCollabCall e = true → cancelIdOf e = some none) ∧
    ((⟨[], [{ id := 2, time := 10, data := "m" }], [], []⟩ : WalletState).unapprovedPersonalMsgs = [] →
      (⟨[], [{ id := 2, time := 10, data := "m" }], [], []⟩ : WalletState).unapprovedMsgs = [] →
      (⟨[], [{ id := 2, time := 10, data := "m" }], [], []⟩ : WalletState).unapprovedTypedMessages = [] →
      (⟨[], [{ id := 2, time := 10, data := "m" }], [], []⟩ : WalletState).transactions = [] →
      (confirmTick ⟨[], [{ id := 2, time := 10, data := "m" }], [], []⟩
        { txId := none, bcOpen := true, iClosedConfirmWindow := false,
          windowOpen := false, timerActive := true }).2.2.filter isCollabCall = []) :=
  watchdogUnsetId_amended ⟨[], [{ id := 2, time := 10, data := "m" }], [], []⟩
    { txId := none, bcOpen := true, iClosedConfirmWindow := false,
      windowOpen := false, timerActive := true } rfl rfl rfl rfl

/-- An effect of the transaction accept path of `handleConfirm`
(`txController.updateTransaction`, `updateAndApproveTransaction`). -/
def isTxPathEffect : Effect → Bool
  | Effect.updateTransaction _ => true
  | Effect.updateAndApproveTransaction _ => true
  | _ => false

/-- Sample transaction parameters used to instantiate theorems on
concrete states. -/
def sampleTxParams : TxParams :=
  { fromAddr := "0xa", toAddr := "0xb", value := "0x1", gas := "0x5208", gasPrice := "0x3b9aca00", data := none }

/-- A sample unapproved transaction entry. -/
def sampleTx : TxMeta :=
  { id := 1, txParams := sampleTxParams, status := TxStatus.unapproved, time := 5 }

/-- A sample pending personal message entry. -/
def sampleMsg : MsgEntry :=
  { id := 2, time := 10, data := "m" }

/-- Claim C3 is false on the code: with one unapproved transaction AND
one pending personal message, `isTorusTransaction` classifies the
pending work as a message (`ok false`), and the confirm and deny
resolutions dispatch to the personal-message path, not the transaction
path, because the message collections are checked first. -/
theorem txPriority_counterexample :
    unApprovedTransactions ⟨[], [sampleMsg], [], [sampleTx]⟩ ≠ [] ∧
    isTorusTransaction ⟨[], [sampleMsg], [], [sampleTx]⟩ = Except.ok false ∧
    handleConfirm ⟨[], [sampleMsg], [], [sampleTx]⟩ { id := some 2, gasPrice := none } =
      Except.ok [Effect.signPersonalMessage sampleMsg (some 2)] ∧
    handleDeny ⟨[], [sampleMsg], [], [sampleTx]⟩ (some 2) =
      [Effect.cancelPersonalMessage (some 2)] := by
  exact ⟨by decide, rfl, rfl, rfl⟩

/-- Claim C3 as amended: the transaction path is taken exactly when all
three message collections are empty and an unapproved transaction is
pending; a non-empty message collection takes priority over pending
transactions. Under the amended hypotheses the classification selects
the transaction kind, every effect a successful confirm resolution makes
is on the transaction accept path, and the deny resolution is the
transaction reject call. -/
theorem txHandledWhenMsgsEmpty (wst : WalletState) (i : Option Nat) (g : Option String)
    (h1 : wst.unapprovedPersonalMsgs = []) (h2 : wst.unapprovedMsgs = [])
    (h3 : wst.unapprovedTypedMessages = []) (h4 : unApprovedTransactions wst ≠ []) :
    isTorusTransaction wst = Except.ok true ∧
    (∀ effs, handleConfirm wst { id := i, gasPrice := g } = Except.ok effs →
      ∀ e ∈ effs, isTxPathEffect e = true) ∧
    handleDeny wst i = [Effect.cancelTransaction i] := by
  have h4' : 0 < (unApprovedTransactions wst).length := List.length_pos.mpr h4
  have htr : 0 < wst.transactions.length := by
    refine List.length_pos.mpr ?_
    intro hnil
    apply h4
    unfold unApprovedTransactions
    rw [hnil]
    rfl
  refine ⟨?_, ?_, ?_⟩
  · simp [isTorusTransaction, h1, h2, h3, h4']
  · intro effs heq
    unfold handleConfirm at heq
    rw [h1, h2, h3] at heq
    rw [if_neg (by decide), if_neg (by decide), if_neg (by decide), if_pos htr] at heq
    split at heq
    · split at heq
      · cases heq
        intro e he
        rcases List.mem_cons.mp he with rfl | he2
        · rfl
        · rcases List.mem_singleton.mp he2 with rfl
          rfl
      · cases heq
        intro e he
        rcases List.mem_singleton.mp he with rfl
        rfl
    · split at heq
      · cases heq
      · cases heq
        intro e he
        rcases List.mem_singleton.mp he with rfl
        rfl
  · simp [handleDeny, h1, h2, h3, htr]

/-- Concrete instantiation of the amended claim C3: one unapproved
transaction and no pending messages. -/
theorem txHandledWhenMsgsEmpty_witness :
    isTorusTransaction ⟨[], [], [], [sampleTx]⟩ = Except.ok true ∧
    (∀ effs, handleConfirm ⟨[], [], [], [sampleTx]⟩ { id := some 1, gasPrice := none } =
        Except.ok effs → ∀ e ∈ effs, isTxPathEffect e = true) ∧
    handleDeny ⟨[], [], [], [sampleTx]⟩ (some 1) = [Effect.cancelTransaction (some 1)] :=
  txHandledWhenMsgsEmpty ⟨[], [], [], [sampleTx]⟩ (some 1) none rfl rfl rfl (by decide)

/-- Claim C9: when all four pending collections are empty, the deny
resolution makes no collaborator call and completes normally for every
id, while the confirm resolution throws `No new transactions.` in the
same state. -/
theorem handleDenyNoopOnEmpty (wst : WalletState) (id : Option Nat) (i : Option Nat)
    (g : Option String)
    (h1 : wst.unapprovedPersonalMsgs = []) (h2 : wst.unapprovedMsgs = [])
    (h3 : wst.unapprovedTypedMessages = []) (h4 : wst.transactions = []) :
    handleDeny wst id = [] ∧
    handleConfirm wst { id := i, gasPrice := g } = Except.error "No new transactions." := by
  constructor
  · simp [handleDeny, h1, h2, h3, h4]
  · simp [handleConfirm, h1, h2, h3, h4]

/-- Concrete instantiation of claim C9 on the empty state with an
arbitrary stale id. -/
theorem handleDenyNoopOnEmpty_witness :
    handleDeny ⟨[], [], [], []⟩ (some 7) = [] ∧
    handleConfirm ⟨[], [], [], []⟩ { id := some 7, gasPrice := some "0x1" } =
      Except.error "No new transactions." :=
  handleDenyNoopOnEmpty ⟨[], [], [], []⟩ (some 7) (some 7) (some "0x1") rfl rfl rfl rfl

/-- Claim C10: in the transaction branch of `handleConfirm`, a carried
gasPrice replaces exactly `txParams.gasPrice` of the resolved
transaction (in a deep copy that is both written back via
`updateTransaction` and approved via `updateAndApproveTransaction`),
leaving the transaction id, status, time and every other `txParams`
field unchanged; with no carried gasPrice the transaction is approved
entirely unmodified. -/
theorem gasPriceOverrideFrame (wst : WalletState) (txMeta : TxMeta) (i : Option Nat)
    (h1 : wst.unapprovedPersonalMsgs = []) (h2 : wst.unapprovedMsgs = [])
    (h3 : wst.unapprovedTypedMessages = []) (htr : wst.transactions ≠ [])
    (hfind : (unApprovedTransactions wst).find? (fun x => some x.id == i) = some txMeta) :
    (∀ s : String, s ≠ "" →
      ∃ newTxMeta : TxMeta,
        handleConfirm wst { id := i, gasPrice := some s } =
          Except.ok [Effect.updateTransaction newTxMeta,
            Effect.updateAndApproveTransaction (some newTxMeta)] ∧
        newTxMeta.txParams.gasPrice = s ∧
        newTxMeta.id = txMeta.id ∧
        newTxMeta.status = txMeta.status ∧
        newTxMeta.time = txMeta.time ∧
        newTxMeta.txParams.fromAddr = txMeta.txParams.fromAddr ∧
        newTxMeta.txParams.toAddr = txMeta.txParams.toAddr ∧
        newTxMeta.txParams.value = txMeta.txParams.value ∧
        newTxMeta.txParams.gas = txMeta.txParams.gas ∧
        newTxMeta.txParams.data = txMeta.txParams.data) ∧
    handleConfirm wst { id := i, gasPrice := none } =
      Except.ok [Effect.updateAndApproveTransaction (some txMeta)] := by
  have htr' : 0 < wst.transactions.length := List.length_pos.mpr htr
  constructor
  · intro s hs
    refine ⟨{ txMeta with txParams := { txMeta.txParams with gasPrice := s } },
      ?_, rfl, rfl, rfl, rfl, rfl, rfl, rfl, rfl, rfl⟩
    simp [handleConfirm, h1, h2, h3, htr', hfind, gasPriceTruthy, hs]
  · simp [handleConfirm, h1, h2, h3, htr', hfind, gasPriceTruthy]

/-- Concrete instantiation of claim C10: the sample transaction with a
user-edited gasPrice of "0x77" and without one. -/
theorem gasPriceOverrideFrame_witness :
    (∃ newTxMeta : TxMeta,
      handleConfirm ⟨[], [], [], [sampleTx]⟩ { id := some 1, gasPrice := some "0x77" } =
        Except.ok [Effect.updateTransaction newTxMeta,
          Effect.updateAndApproveTransaction (some newTxMeta)] ∧
      newTxMeta.txParams.gasPrice = "0x77" ∧
      newTxMeta.id = sampleTx.id ∧
      newTxMeta.status = sampleTx.status ∧
      newTxMeta.time = sampleTx.time ∧
      newTxMeta.txParams.fromAddr = sampleTx.txParams.fromAddr ∧
      newTxMeta.txParams.toAddr = sampleTx.txParams.toAddr ∧
      newTxMeta.txParams.value = sampleTx.txParams.value ∧
      newTxMeta.txParams.gas = sampleTx.txParams.gas ∧
      newTxMeta.txParams.data = sampleTx.txParams.data) ∧
    handleConfirm ⟨[], [], [], [sampleTx]⟩ { id := some 1, gasPrice := none } =
      Except.ok [Effect.updateAndApproveTransaction (some sampleTx)] :=
  ⟨(gasPriceOverrideFrame ⟨[], [], [], [sampleTx]⟩ sampleTx (some 1)
      rfl rfl rfl (by decide) rfl).1 "0x77" (by decide),
    (gasPriceOverrideFrame ⟨[], [], [], [sampleTx]⟩ sampleTx (some 1)
      rfl rfl rfl (by decide) rfl).2⟩

/-- The value of `chunk.params[0].from` as the transform stage sees it:
a JS string, a Node `Buffer` (raw byte sequence), the empty array the
stage substitutes for a missing sender, or `undefined` (field absent). -/
inductive FromVal
  | fstr (s : String)
  | fbuf (b : List Nat)
  | farr
  | fundef
deriving DecidableEq

/-- Numeric value of a hex digit character, `none` for other characters. -/
def hexDigitVal (c : Char) : Option Nat :=
  if c.isDigit then some (c.toNat - 48)
  else if 97 ≤ c.toNat && c.toNat ≤ 102 then some (c.toNat - 87)
  else if 65 ≤ c.toNat && c.toNat ≤ 70 then some (c.toNat - 55)
  else none

/-- Byte value of one hex digit pair, `none` on a non-hex character. -/
def hexPairByte (c1 c2 : Char) : Option Nat :=
  match hexDigitVal c1, hexDigitVal c2 with
  | some h, some l => some (16 * h + l)
  | _, _ => none

/-- Node `Buffer.from(s, 'hex')`: decodes hex pairs left to right and
truncates at the first invalid pair or dangling digit. -/
def hexDecode : List Char → List Nat
  | c1 :: c2 :: rest =>
    match hexPairByte c1 c2 with
    | some b => b :: hexDecode rest
    | none => []
  | _ => []

/-- A JSON-RPC request as it flows through the transform stage: its
method name, whether `params[0]` exists, and the `from` value of
`params[0]`. The remaining request content is never touched by the
stage (it only ever assigns `chunk.params[0].from`), so it is not
modelled. -/
structure RpcChunk where
  method : String
  hasParam0 : Bool
  fromVal : FromVal
deriving DecidableEq

/-- Embedding of `transformStream` of `src/unnamed/part_002` (lines
179-201). For the two simulation methods only: a truthy string `from`
with the `0x` marker is rewritten to the raw bytes of its hex tail; a
falsy `from` (absent, or the falsy empty string) is replaced by the
empty array; anything else (already a Buffer, already the empty array, a
non-marker string) is left alone. Accessing `.from` on a missing
`params[0]` throws a TypeError that the surrounding try/catch turns into
a stream error (`cb(err, null)`), embedded as `Except.error`. Any other
method passes through untouched. -/
def transformStream (c : RpcChunk) : Except String RpcChunk :=
  if c.method == "eth_call" || c.method == "eth_estimateGas" then
    if c.hasParam0 = false then Except.error "TypeError"
    else
      match c.fromVal with
      | FromVal.fstr s =>
        if s != "" then
          if s.take 2 == "0x" then
            Except.ok { c with fromVal := FromVal.fbuf (hexDecode (s.drop 2).toList) }
          else Except.ok c
        else Except.ok { c with fromVal := FromVal.farr }
      | FromVal.fundef => Except.ok { c with fromVal := FromVal.farr }
      | FromVal.fbuf _ => Except.ok c
      | FromVal.farr => Except.ok c
  else Except.ok c

/-- Claim C6: the transform stage is idempotent on the two simulation
methods — a second application is exactly the first's result: a `from`
already converted to raw bytes or already substituted by the empty
sequence is never converted again. -/
theorem transformStream_idempotent (c : RpcChunk)
    (h : c.method = "eth_call" ∨ c.method = "eth_estimateGas") :
    (transformStream c).bind transformStream = transformStream c := by
  have hm : (c.method == "eth_call" || c.method == "eth_estimateGas") = true := by
    rcases h with h | h <;> rw [h] <;> rfl
  by_cases hp : c.hasParam0 = false
  · have h1 : transformStream c = Except.error "TypeError" := by
      simp [transformStream, hm, hp]
    rw [h1]
    rfl
  · have hp' : c.hasParam0 = true := by
      cases hc : c.hasParam0
      · exact absurd hc hp
      · rfl
    rcases hf : c.fromVal with s | b | _ | _
    · by_cases hs : s = ""
      · have h1 : transformStream c = Except.ok { c with fromVal := FromVal.farr } := by
          simp [transformStream, hm, hp', hf, hs]
        rw [h1]
        show transformStream { c with fromVal := FromVal.farr } = _
        simp [transformStream, hm, hp']
      · by_cases hx : (s.take 2 == "0x") = true
        · have h1 : transformStream c =
              Except.ok { c with fromVal := FromVal.fbuf (hexDecode (s.drop 2).toList) } := by
            simp [transformStream, hm, hp', hf, hs, hx]
          rw [h1]
          show transformStream { c with fromVal := FromVal.fbuf (hexDecode (s.drop 2).toList) } = _
          simp [transformStream, hm, hp']
        · have h1 : transformStream c = Except.ok c := by
            simp [transformStream, hm, hp', hf, hs, hx]
          rw [h1]
          show transformStream c = Except.ok c
          exact h1
    · have h1 : transformStream c = Except.ok c := by
        simp [transformStream, hm, hp', hf]
      rw [h1]
      show transformStream c = Except.ok c
      exact h1
    · have h1 : transformStream c = Except.ok c := by
        simp [transformStream, hm, hp', hf]
      rw [h1]
      show transformStream c = Except.ok c
      exact h1
    · have h1 : transformStream c = Except.ok { c with fromVal := FromVal.farr } := by
        simp [transformStream, hm, hp', hf]
      rw [h1]
      show transformStream { c with fromVal := FromVal.farr } = _
      simp [transformStream, hm, hp']

/-- Concrete instantiation of claim C6: an `eth_call` whose `from` is a
marker-prefixed hex string is converted once and untouched by a second
application. -/
theorem transformStream_idempotent_witness :
    (transformStream { method := "eth_call", hasParam0 := true, fromVal := FromVal.fstr "0x0a" }).bind
        transformStream =
      transformStream { method := "eth_call", hasParam0 := true, fromVal := FromVal.fstr "0x0a" } :=
  transformStream_idempotent
    { method := "eth_call", hasParam0 := true, fromVal := FromVal.fstr "0x0a" } (Or.inl rfl)

/-- The pending network-change payload the surface echoes back on
confirm (`this.payload`, holding `network` and `type`). -/
structure ProviderChangePayload where
  network : String
  ptype : String
deriving DecidableEq

/-- Observable actions of the network-change surface: a broadcast-channel
post carrying the decision (`approve` plus the message `type`, and the
payload on confirm), a channel close, and the surface closing its own
window. -/
inductive PCEffect
  | post (channel : String) (mtype : String) (approve : Bool) (payload : Option ProviderChangePayload)
  | closeChannel (channel : String)
  | closeWindow
deriving DecidableEq

/-- The fixed broadcast-channel name of the network-change flow
(ProviderChange.vue lines 73, 81, 88): a literal, shared by every
instance. -/
def providerChangeChannelName : String := "torus_provider_change_channel"

/-- The broadcast-channel name of an approval session (store.js line 67):
parameterized by the per-process instance id, unlike the network-change
channel. -/
def torusChannelName (instanceId : String) : String := "torus_channel_" ++ instanceId

/-- Embedding of `triggerSign` (ProviderChange.vue lines 72-79): opens the
fixed-name channel, posts `type: confirm-provider-change` with the held
payload and `approve: true`, closes the channel, closes the window. -/
def triggerSign (payload : ProviderChangePayload) : List PCEffect :=
  [PCEffect.post providerChangeChannelName "confirm-provider-change" true (some payload),
    PCEffect.closeChannel providerChangeChannelName,
    PCEffect.closeWindow]

/-- Embedding of `triggerDeny` (ProviderChange.vue lines 80-85): opens the
fixed-name channel, posts `type: deny-provider-change` with
`approve: false` and no payload, closes the channel, closes the window. -/
def triggerDeny : List PCEffect :=
  [PCEffect.post providerChangeChannelName "deny-provider-change" false none,
    PCEffect.closeChannel providerChangeChannelName,
    PCEffect.closeWindow]

/-- The approve booleans posted by a list of surface actions, in order. -/
def postedDecisions (effs : List PCEffect) : List Bool :=
  effs.filterMap fun e =>
    match e with
    | PCEffect.post _ _ a _ => some a
    | _ => none

/-- The channel names a list of surface actions touches, in order. -/
def channelsUsed (effs : List PCEffect) : List String :=
  effs.filterMap fun e =>
    match e with
    | PCEffect.post ch _ _ _ => some ch
    | PCEffect.closeChannel ch => some ch
    | PCEffect.closeWindow => none

/-- Claim C8: each user action of the network-change surface posts
exactly one decision carrying an approve boolean — true on confirm,
false on cancel — every channel it touches is the fixed
non-instance-parameterized name, and after the post it closes its
channel and then its own window. -/
theorem providerChangeDecisionEffects (payload : ProviderChangePayload) :
    postedDecisions (triggerSign payload) = [true] ∧
    postedDecisions triggerDeny = [false] ∧
    channelsUsed (triggerSign payload) = [providerChangeChannelName, providerChangeChannelName] ∧
    channelsUsed triggerDeny = [providerChangeChannelName, providerChangeChannelName] ∧
    providerChangeChannelName = "torus_provider_change_channel" ∧
    (triggerSign payload).drop 1 = [PCEffect.closeChannel providerChangeChannelName, PCEffect.closeWindow] ∧
    triggerDeny.drop 1 = [PCEffect.closeChannel providerChangeChannelName, PCEffect.closeWindow] := by
  refine ⟨rfl, rfl, rfl, rfl, rfl, rfl, rfl⟩

/-- Concrete instantiation of claim C2: a state with one pending typed
message is classified without error. -/
theorem isTorusTransaction_noPendingWork_iff_witness :
    ((∃ e, isTorusTransaction ⟨[], [], [sampleMsg], []⟩ = Except.error e) ↔
      ((⟨[], [], [sampleMsg], []⟩ : WalletState).unapprovedPersonalMsgs = [] ∧
        (⟨[], [], [sampleMsg], []⟩ : WalletState).unapprovedMsgs = [] ∧
        (⟨[], [], [sampleMsg], []⟩ : WalletState).unapprovedTypedMessages = [] ∧
        unApprovedTransactions ⟨[], [], [sampleMsg], []⟩ = [])) ∧
    (¬ ((⟨[], [], [sampleMsg], []⟩ : WalletState).unapprovedPersonalMsgs = [] ∧
        (⟨[], [], [sampleMsg], []⟩ : WalletState).unapprovedMsgs = [] ∧
        (⟨[], [], [sampleMsg], []⟩ : WalletState).unapprovedTypedMessages = [] ∧
        unApprovedTransactions ⟨[], [], [sampleMsg], []⟩ = []) →
      ∃ b, isTorusTransaction ⟨[], [], [sampleMsg], []⟩ = Except.ok b) :=
  isTorusTransaction_noPendingWork_iff ⟨[], [], [sampleMsg], []⟩

/-- Concrete instantiation of claim C8 on a sample rpc network payload. -/
theorem providerChangeDecisionEffects_witness :
    postedDecisions (triggerSign { network := "mainnet", ptype := "rpc" }) = [true] ∧
    postedDecisions triggerDeny = [false] ∧
    channelsUsed (triggerSign { network := "mainnet", ptype := "rpc" }) =
      [providerChangeChannelName, providerChangeChannelName] ∧
    channelsUsed triggerDeny = [providerChangeChannelName, providerChangeChannelName] ∧
    providerChangeChannelName = "torus_provider_change_channel" ∧
    (triggerSign { network := "mainnet", ptype := "rpc" }).drop 1 =
      [PCEffect.closeChannel providerChangeChannelName, PCEffect.closeWindow] ∧
    triggerDeny.drop 1 = [PCEffect.closeChannel providerChangeChannelName, PCEffect.closeWindow] :=
  providerChangeDecisionEffects { network := "mainnet", ptype := "rpc" }
